import Mathlib

/-
Verification development for the SSE session/broadcast orchestration layer
of the gohttp repository (package `service`, file containing `RegisterSSE`,
`SseSession`, `SseMessage`, `containsAcceptType`, `handleCallback`).

The Go source is shallowly embedded: maps become association lists, channels
become explicit queues, goroutine interleaving becomes an explicit event
script, and `defer` stacks are unfolded at each return point in LIFO order,
exactly as Go executes them.  `json.Marshal` is an external library call and
is therefore a parameter (`marshal`) of every definition that uses it.
-/

/-- A JSON-able value stored in an `SseMessage` (Go `interface\x7b\x7d` values that
actually occur in this code are strings and integers). -/
inductive SseVal where
  | str (s : String)
  | int (n : Int)
  deriving DecidableEq, Repr

/-- Go `type SseMessage map[string]interface\x7b\x7d`, modelled as an association
list from keys to values. -/
abbrev SseMessage := List (String × SseVal)

/-- Go `func (m *SseMessage) Event() string`: the "event" key as a string,
empty string if absent or of the wrong type. -/
def SseMessage.Event (m : SseMessage) : String :=
  match m.lookup "event" with
  | some (SseVal.str s) => s
  | _ => ""

/-- The SSE text frame built around a JSON encoding: `data: <json>\r\n\r\n`.
Mirrors `fmt.Sprintf("data: %s\r\n\r\n", encoded_message)` in `Encode`. -/
def sseFrame (json : String) : String :=
  "data: " ++ json ++ "\r\n\r\n"

/-- Go `func (m *SseMessage) Encode() ([]byte, error)`.  `json.Marshal` is the
external encoder passed as `marshal`; a marshal error is returned unchanged,
otherwise the frame `data: <json>\r\n\r\n` is produced. -/
def SseMessage.Encode (marshal : SseMessage → Except String String)
    (m : SseMessage) : Except String String :=
  match marshal m with
  | Except.error e => Except.error e
  | Except.ok j => Except.ok (sseFrame j)

/-- Go standard library `strings.Split(s, sep)` for a one-character
separator (the only uses here are "," and ";"): the list of substrings
between occurrences of the separator; the split of the empty string is one
empty field. -/
def goSplit (sep : Char) : List Char → List (List Char)
  | [] => [[]]
  | c :: cs =>
    let r := goSplit sep cs
    if c = sep then [] :: r
    else
      match r with
      | [] => [[c]]
      | g :: gs => (c :: g) :: gs

/-- Go `unicode.IsSpace` restricted to the characters it declares to be
space in Latin-1 (the inputs of interest are ASCII headers). -/
def isGoSpace (c : Char) : Bool :=
  c == ' ' || c == '\t' || c == '\n' || c == '\x0b' || c == '\x0c' ||
    c == '\r' || c == '\u0085' || c == '\u00A0'

/-- Go standard library `strings.TrimSpace`: drop leading and trailing
whitespace. -/
def goTrimSpace (l : List Char) : List Char :=
  ((l.dropWhile isGoSpace).reverse.dropWhile isGoSpace).reverse

/-- Go `func containsAcceptType(acceptHeader, expectedType string) bool`:
split the header on commas, take each entry's media type (everything
before a `;`), trim whitespace, and compare for exact equality. -/
def containsAcceptType (acceptHeader expectedType : String) : Bool :=
  (goSplit ',' acceptHeader.data).any fun part =>
    goTrimSpace ((goSplit ';' part).headD []) == expectedType.data

/-- The discriminator at the top of the SSE route handler: a request is
diverted to callback handling when its Accept header does not declare
`text/event-stream` and it carries a non-empty `X-Client-ID` header.
Mirrors `if !containsAcceptType(acceptHeader, "text/event-stream") &&
clientID != ""`. -/
def sseRouteIsCallback (acceptHeader clientID : String) : Bool :=
  !containsAcceptType acceptHeader "text/event-stream" && clientID != ""

/-- A concrete `SseEventHandler` implementation, given by the data that
determines each hook's behaviour: the error returned by `OnInitialize`,
the error returned by `OnConnect`, and the filtering function `OnMessage`.
`OnDisconnect` and `OnCallback` return nothing; their invocations are
recorded in execution traces. -/
structure SseEventHandlerModel where
  onInitializeErr : Option String
  onConnectErr : Option String
  onMessage : SseMessage → Bool

/-- Capacity of the direct-message channel: `make(chan SseMessage, 256)`. -/
def directCapacity : Nat := 256

/-- Go `type SseSession struct`.  The three Go resources released by `Close`
(`close(s.done)`, `s.broadcast_messages.Close()`, `close(s.direct_messages)`)
are modelled by release counters so that "released exactly once" is a
statement about the model. -/
structure SseSession where
  client_id : String
  user_handler : Option SseEventHandlerModel
  direct_messages : List SseMessage
  closed : Bool
  doneCloseCount : Nat
  consumerCloseCount : Nat
  directCloseCount : Nat

/-- Go `func (s *SseSession) DirectMessage(msg SseMessage) error`:
under the session lock, fail with "session closed" if closed, otherwise
non-blocking enqueue — the `select`/`default` fails with "direct message
buffer full" when the 256-slot channel has no free slot. -/
def SseSession.DirectMessage (s : SseSession) (msg : SseMessage) :
    SseSession × Option String :=
  if s.closed then
    (s, some "session closed")
  else if s.direct_messages.length < directCapacity then
    ({ s with direct_messages := s.direct_messages ++ [msg] }, none)
  else
    (s, some "direct message buffer full")

/-- Go `func (s *SseSession) Close()`: under the lock, return immediately if
already closed, otherwise set `closed` and release the three resources
(done channel, broadcast consumer, direct channel) exactly once. -/
def SseSession.Close (s : SseSession) : SseSession :=
  if s.closed then s
  else
    { s with
      closed := true
      doneCloseCount := s.doneCloseCount + 1
      consumerCloseCount := s.consumerCloseCount + 1
      directCloseCount := s.directCloseCount + 1 }

/-- The server's client registry `map[ClientID]*SseSession`, as an
association list. -/
abbrev Registry := List (String × SseSession)

/-- Go map assignment `srv.clients[client_id] = session`. -/
def regSet (reg : Registry) (k : String) (v : SseSession) : Registry :=
  (k, v) :: reg.filter fun kv => kv.1 != k

/-- Go `delete(srv.clients, k)`. -/
def regRemove (reg : Registry) (k : String) : Registry :=
  reg.filter fun kv => kv.1 != k

/-- The inputs of `handleCallback` that determine client-identity
resolution: the `X-Client-ID` header (empty string when absent, as
`r.Header.Get` yields) and the `client_id` / `observer_id` entries of the
unified parameter view (`HttpParameterT[string]`; `none` models a lookup
that fails or does not convert). -/
structure CallbackRequest where
  xClientID : String
  client_id_param : Option String
  observer_id_param : Option String

/-- The identity-resolution ladder of `handleCallback`: header first, then
`client_id` parameter, then `observer_id` parameter, each taken only when
the identity is still empty and the candidate is non-empty. -/
def resolveClientID (r : CallbackRequest) : String :=
  let cid0 : String := ""
  let cid1 := if r.xClientID != "" then r.xClientID else cid0
  let cid2 :=
    if cid1 == "" then
      match r.client_id_param with
      | some p => if p != "" then p else cid1
      | none => cid1
    else cid1
  let cid3 :=
    if cid2 == "" then
      match r.observer_id_param with
      | some p => if p != "" then p else cid2
      | none => cid2
    else cid2
  cid3

/-- Observable outcome of `handleCallback`: an error written to the
response, the session handler's `OnCallback` invoked, or a silent no-op
when the resolved session has no handler. -/
inductive CallbackOutcome where
  | writeError (msg : String)
  | onCallbackInvoked (cid : String)
  | noHandlerNoop (cid : String)
  deriving DecidableEq, Repr

/-- Go `handleCallback` (the closure inside `RegisterSSE`): resolve the
identity, fail with "missing client_id" when empty, look it up in
`srv.clients` under the read lock, fail with "client not found" when
absent, otherwise invoke `OnCallback` when a handler is attached. -/
def handleCallback (clients : Registry) (r : CallbackRequest) :
    CallbackOutcome :=
  let clientID := resolveClientID r
  if clientID == "" then
    CallbackOutcome.writeError "missing client_id"
  else
    match clients.lookup clientID with
    | none => CallbackOutcome.writeError "client not found"
    | some session =>
      match session.user_handler with
      | some _ => CallbackOutcome.onCallbackInvoked clientID
      | none => CallbackOutcome.noHandlerNoop clientID

/-- First non-empty string of a candidate list ("first non-empty match
wins"), used by the spec-side resolution below. -/
def firstNonEmpty : List String → Option String
  | [] => none
  | s :: rest => if s ≠ "" then some s else firstNonEmpty rest

/-- Spec-side identity resolution, written from the specification's words:
"resolve client identity in priority order: (1) a dedicated header, (2) a
`client_id` parameter, (3) an `observer_id` parameter.  First non-empty
match wins."  An absent parameter contributes the empty candidate. -/
def resolveClientIDSpec (r : CallbackRequest) : Option String :=
  firstNonEmpty
    [r.xClientID, r.client_id_param.getD "", r.observer_id_param.getD ""]

/-- The keepalive interval: `pingInterval := 60 * time.Second`, modelled in
seconds. -/
def pingInterval : Int := 60

/-- The `on_connect` handshake message queued at lines 282-286 of the route
handler. -/
def onConnectMessage (cid : String) : SseMessage :=
  [("event", SseVal.str "on_connect"),
   ("observer_id", SseVal.str cid),
   ("client_id", SseVal.str cid)]

/-- The synthetic keepalive message built in the ticker branch: event
"ping", payload `time.Now().Unix()`. -/
def pingMessage (now : Int) : SseMessage :=
  [("event", SseVal.str "ping"), ("payload", SseVal.int now)]

/-- Observable actions of one connection's request handler, in program
order: hook invocations, response writes, ticker resets, queue operations,
registry mutation and resource release. -/
inductive SseAction where
  | onInitialize (err : Option String)
  | onConnect (err : Option String)
  | onMessage (m : SseMessage) (allow : Bool)
  | onDisconnect
  | writeError (msg : String)
  | wrote (frame : String)
  | tickerReset (deadline : Int)
  | directEnqueued (m : SseMessage)
  | directEnqueueFailed (m : SseMessage) (err : String)
  | registryDelete (cid : String)
  | closeReleased
  deriving DecidableEq, Repr

/-- One iteration's worth of input to the multiplex `select`: which arm
fired and with what data.  `broadcastRecv none` models the broadcast
consumer channel being closed (`ok == false`); `wOk` says whether the
`w.Write` call of that iteration (if reached) succeeds; `now` is the
current time, used by ticker resets and the ping payload.
`enqueueDirect` is not a `select` arm: it models another goroutine calling
`DirectMessage` between loop iterations. -/
inductive LoopEvent where
  | broadcastRecv (got : Option SseMessage) (wOk : Bool) (now : Int)
  | directRecv (wOk : Bool) (now : Int)
  | tick (now : Int) (wOk : Bool)
  | cancel
  | enqueueDirect (m : SseMessage)

/-- In-loop connection state: the session and the absolute time at which
the keepalive ticker next fires. -/
structure ConnState where
  session : SseSession
  nextTick : Int

/-- Result of one loop iteration: continue with a new state, or leave the
loop (a `return` in the Go source), either way with the actions performed
during the iteration. -/
inductive StepResult where
  | cont (st : ConnState) (acts : List SseAction)
  | exit (st : ConnState) (acts : List SseAction)

/-- The state carried out of a loop iteration. -/
def StepResult.outState : StepResult → ConnState
  | StepResult.cont st _ => st
  | StepResult.exit st _ => st

/-- The actions performed during a loop iteration. -/
def StepResult.acts : StepResult → List SseAction
  | StepResult.cont _ a => a
  | StepResult.exit _ a => a

/-- Whether the iteration left the loop. -/
def StepResult.isExit : StepResult → Bool
  | StepResult.cont _ _ => false
  | StepResult.exit _ _ => true

/-- The message-delivery code shared verbatim by the broadcast and direct
arms of the `select`: run `OnMessage` when a handler is attached and skip
the message if it returns false; otherwise encode (a marshal error is
written as an error response and exits the loop), write (a write error
exits the loop), and — when the writer is an `http.Flusher` — flush and
reset the keepalive ticker to a full interval. -/
def deliver (marshal : SseMessage → Except String String) (flusher : Bool)
    (st : ConnState) (msg : SseMessage) (wOk : Bool) (now : Int) :
    StepResult :=
  let hookActs : List SseAction :=
    match st.session.user_handler with
    | some h => [SseAction.onMessage msg (h.onMessage msg)]
    | none => []
  let suppressed : Bool :=
    match st.session.user_handler with
    | some h => !h.onMessage msg
    | none => false
  if suppressed then
    StepResult.cont st hookActs
  else
    match SseMessage.Encode marshal msg with
    | Except.ok frame =>
      if wOk then
        if flusher then
          StepResult.cont { st with nextTick := now + pingInterval }
            (hookActs ++
              [SseAction.wrote frame, SseAction.tickerReset (now + pingInterval)])
        else
          StepResult.cont st (hookActs ++ [SseAction.wrote frame])
      else
        StepResult.exit st hookActs
    | Except.error e =>
      StepResult.exit st (hookActs ++ [SseAction.writeError e])

/-- One iteration of the multiplex loop (the `for \x7b select \x7b ... \x7d \x7d` at
lines 302-372).  A `directRecv` when the open queue is empty cannot occur
in the real `select` (the channel receive is not ready) and is modelled as
a stutter; a `directRecv` on a closed empty queue observes `ok == false`.
The ticker arm writes the ping without consulting `OnMessage` and without
a `Reset` call; the ticker re-arms itself one period later. -/
def loopStep (marshal : SseMessage → Except String String) (flusher : Bool)
    (st : ConnState) : LoopEvent → StepResult
  | LoopEvent.broadcastRecv none _ _ => StepResult.exit st []
  | LoopEvent.broadcastRecv (some msg) wOk now =>
    deliver marshal flusher st msg wOk now
  | LoopEvent.directRecv wOk now =>
    match st.session.direct_messages with
    | [] =>
      if st.session.closed then StepResult.exit st []
      else StepResult.cont st []
    | msg :: rest =>
      deliver marshal flusher
        { st with session := { st.session with direct_messages := rest } }
        msg wOk now
  | LoopEvent.tick now wOk =>
    match SseMessage.Encode marshal (pingMessage now) with
    | Except.ok frame =>
      if wOk then
        StepResult.cont { st with nextTick := now + pingInterval }
          [SseAction.wrote frame]
      else
        StepResult.exit st []
    | Except.error e => StepResult.exit st [SseAction.writeError e]
  | LoopEvent.cancel => StepResult.exit st []
  | LoopEvent.enqueueDirect msg =>
    let r := st.session.DirectMessage msg
    StepResult.cont { st with session := r.1 }
      (match r.2 with
       | none => [SseAction.directEnqueued msg]
       | some e => [SseAction.directEnqueueFailed msg e])

/-- Result of running the multiplex loop over an event script: the final
in-loop state, the accumulated actions, and whether the loop returned
(`exited = false` means the script ran out while the connection was still
live). -/
structure LoopResult where
  state : ConnState
  acts : List SseAction
  exited : Bool

/-- Fold `loopStep` over an event script, stopping at the first exit. -/
def runLoop (marshal : SseMessage → Except String String) (flusher : Bool) :
    ConnState → List LoopEvent → LoopResult
  | st, [] => ⟨st, [], false⟩
  | st, e :: es =>
    match loopStep marshal flusher st e with
    | StepResult.cont st2 acts =>
      let r := runLoop marshal flusher st2 es
      ⟨r.state, acts ++ r.acts, r.exited⟩
    | StepResult.exit st2 acts => ⟨st2, acts, true⟩

/-- Result of one whole streaming request: the server's registry, the final
session value, the action trace, and whether the handler returned. -/
structure RunResult where
  clients : Registry
  session : SseSession
  trace : List SseAction
  exited : Bool

/-- Run the deferred `session.Close()` (line 256), recording the release
transition when it actually happens. -/
def closeWithTrace (s : SseSession) : SseSession × List SseAction :=
  (s.Close, if s.closed then [] else [SseAction.closeReleased])

/-- The deferred calls that run, in LIFO order, at any return reached after
line 279: first the cleanup func (delete the registry entry, then invoke
`OnDisconnect` when a handler is attached), then `session.Close()`, then
`cancel()` (no observable effect on this model's state). -/
def finishTeardown (reg : Registry) (session : SseSession) (cid : String)
    (tr : List SseAction) : RunResult :=
  let reg2 := regRemove reg cid
  let tr2 := tr ++ [SseAction.registryDelete cid] ++
    (match session.user_handler with
     | some _ => [SseAction.onDisconnect]
     | none => [])
  let c := closeWithTrace session
  ⟨reg2, c.1, tr2 ++ c.2, true⟩

/-- Lines 296-372: the multiplex loop phase.  The ticker is created at time
`t0` (line 299), so it first fires at `t0 + pingInterval`.  When the loop
returns, the full deferred stack runs. -/
def runMultiplex (marshal : SseMessage → Except String String)
    (flusher : Bool) (reg : Registry) (session2 : SseSession) (cid : String)
    (t0 : Int) (events : List LoopEvent) (tr : List SseAction) : RunResult :=
  let st0 : ConnState := ⟨session2, t0 + pingInterval⟩
  let r := runLoop marshal flusher st0 events
  if r.exited then finishTeardown reg r.state.session cid (tr ++ r.acts)
  else ⟨reg, r.state.session, tr ++ r.acts, false⟩

/-- Lines 270-372: the phase entered once initialization has succeeded.
The registry-cleanup defer (lines 271-279) is registered here; then the
`on_connect` handshake is queued with `DirectMessage` (its error, if any,
is discarded by the source), `OnConnect` runs (an error aborts through the
full deferred stack), and the multiplex loop is entered. -/
def runConnected (marshal : SseMessage → Except String String)
    (flusher : Bool) (reg : Registry) (session1 : SseSession) (cid : String)
    (t0 : Int) (events : List LoopEvent) (tr0 : List SseAction) : RunResult :=
  let d := session1.DirectMessage (onConnectMessage cid)
  let tr1 := tr0 ++
    (match d.2 with
     | none => [SseAction.directEnqueued (onConnectMessage cid)]
     | some e => [SseAction.directEnqueueFailed (onConnectMessage cid) e])
  match d.1.user_handler with
  | some uh =>
    match uh.onConnectErr with
    | some err =>
      finishTeardown reg d.1 cid
        (tr1 ++ [SseAction.onConnect (some err), SseAction.writeError err])
    | none =>
      runMultiplex marshal flusher reg d.1 cid t0 events
        (tr1 ++ [SseAction.onConnect none])
  | none => runMultiplex marshal flusher reg d.1 cid t0 events tr1

/-- The streaming branch of the route handler (lines 236-372): create the
broadcast consumer (whose id, chosen by the fan-out primitive, becomes the
client id), construct the session, insert it into the registry, register
`defer session.Close()`, and run the user handler's `OnInitialize` when the
factory yields a handler.  An `OnInitialize` error writes an error response
and returns; at that point only the defers registered so far run
(`session.Close()`, then `cancel()`) — the registry-cleanup defer of lines
271-279 has not been registered yet, so the registry entry is not removed
and `OnDisconnect` is not invoked. -/
def runSseConnection (marshal : SseMessage → Except String String)
    (flusher : Bool) (reg0 : Registry)
    (factory : Option (Option SseEventHandlerModel)) (consumerId : String)
    (t0 : Int) (events : List LoopEvent) : RunResult :=
  let client_id := consumerId
  let session0 : SseSession :=
    { client_id := client_id
      user_handler := none
      direct_messages := []
      closed := false
      doneCloseCount := 0
      consumerCloseCount := 0
      directCloseCount := 0 }
  let reg1 := regSet reg0 client_id session0
  match factory with
  | some (some uh) =>
    let session1 := { session0 with user_handler := some uh }
    match uh.onInitializeErr with
    | some err =>
      let c := closeWithTrace session1
      ⟨reg1, c.1,
        [SseAction.onInitialize (some err), SseAction.writeError err] ++ c.2,
        true⟩
    | none =>
      runConnected marshal flusher reg1 session1 client_id t0 events
        [SseAction.onInitialize none]
  | some none => runConnected marshal flusher reg1 session0 client_id t0 events []
  | none => runConnected marshal flusher reg1 session0 client_id t0 events []

/-- The ticker's firing times during an idle stretch: starting at deadline
`d`, one tick every `pingInterval`. -/
def tickTimes (d : Int) : Nat → List Int
  | 0 => []
  | n + 1 => d :: tickTimes (d + pingInterval) n

/-- Spec-side callback handling, written from the specification's words:
fail with `MissingClientID` if no identity is present, `ClientNotFound`
if the identity does not resolve in the registry, otherwise dispatch to
the session handler's `OnCallback`, a nil handler being a silent no-op. -/
def handleCallbackSpec (clients : Registry) (r : CallbackRequest) :
    CallbackOutcome :=
  match resolveClientIDSpec r with
  | none => CallbackOutcome.writeError "missing client_id"
  | some cid =>
    match clients.lookup cid with
    | none => CallbackOutcome.writeError "client not found"
    | some session =>
      match session.user_handler with
      | some _ => CallbackOutcome.onCallbackInvoked cid
      | none => CallbackOutcome.noHandlerNoop cid

/-
Helper lemmas (shared by several claim theorems).
-/

/-- Filtering out the entries of one key leaves every other key's lookup
unchanged. -/
theorem lookup_filter_ne (reg : Registry) (k k' : String) (h : k' ≠ k) :
    (reg.filter fun kv => kv.1 != k).lookup k' = reg.lookup k' := by
  induction reg with
  | nil => rfl
  | cons kv rest ih =>
    rcases kv with ⟨a, v⟩
    by_cases hk : a = k
    · have hf : (a != k) = false := by simp [hk]
      have hne : (k' == a) = false := by simp [hk, h]
      simp [List.filter_cons, hf, List.lookup, hne, ih]
    · have hf : (a != k) = true := by simp [hk]
      by_cases hk' : k' = a
      · have hb : (k' == a) = true := by simp [hk']
        simp [List.filter_cons, hf, List.lookup, hb]
      · have hb : (k' == a) = false := by simp [hk']
        simp [List.filter_cons, hf, List.lookup, hb, ih]

/-- After `delete(srv.clients, k)`, the lookup of `k` fails. -/
theorem lookup_regRemove_self (reg : Registry) (k : String) :
    (regRemove reg k).lookup k = none := by
  induction reg with
  | nil => rfl
  | cons kv rest ih =>
    rcases kv with ⟨a, v⟩
    by_cases hk : a = k
    · have hf : (a != k) = false := by simp [hk]
      simpa [regRemove, List.filter_cons, hf] using ih
    · have hf : (a != k) = true := by simp [hk]
      have hb : (k == a) = false := by simp [Ne.symm hk]
      simpa [regRemove, List.filter_cons, hf, List.lookup, hb] using ih

/-- `delete(srv.clients, k)` leaves other keys' lookups unchanged. -/
theorem lookup_regRemove_ne (reg : Registry) (k k' : String) (h : k' ≠ k) :
    (regRemove reg k).lookup k' = reg.lookup k' :=
  lookup_filter_ne reg k k' h

/-- `srv.clients[k] = v` leaves other keys' lookups unchanged. -/
theorem lookup_regSet_ne (reg : Registry) (k k' : String) (v : SseSession)
    (h : k' ≠ k) : (regSet reg k v).lookup k' = reg.lookup k' := by
  have : (k' == k) = false := by simp [h]
  simp [regSet, List.lookup, this, lookup_filter_ne reg k k' h]

/-- The code-side identity resolution agrees with the spec-side
"first non-empty match wins" resolution. -/
theorem resolveClientID_eq_spec (r : CallbackRequest) :
    resolveClientIDSpec r =
      if resolveClientID r = "" then none else some (resolveClientID r) := by
  rcases r with ⟨x, cp, op⟩
  by_cases hx : x = ""
  · rcases cp with _ | p
    · rcases op with _ | q
      · simp [resolveClientIDSpec, resolveClientID, firstNonEmpty, hx]
      · by_cases hq : q = "" <;>
          simp [resolveClientIDSpec, resolveClientID, firstNonEmpty, hx, hq]
    · by_cases hp : p = ""
      · rcases op with _ | q
        · simp [resolveClientIDSpec, resolveClientID, firstNonEmpty, hx, hp]
        · by_cases hq : q = "" <;>
            simp [resolveClientIDSpec, resolveClientID, firstNonEmpty, hx, hp, hq]
      · simp [resolveClientIDSpec, resolveClientID, firstNonEmpty, hx, hp]
  · simp [resolveClientIDSpec, resolveClientID, firstNonEmpty, hx]

/-
Claim theorems.
-/

/-- Claim C4: resolving a callback request's client identity follows the
priority order X-Client-ID header, then the `client_id` parameter, then the
`observer_id` parameter, first non-empty match winning; an empty resolution
fails with the missing-client-id error, an unregistered identity fails with
the client-not-found error, and on success the handler's `OnCallback` is
invoked, a nil handler being a silent no-op: the code-side `handleCallback`
coincides with the spec-side `handleCallbackSpec` on every registry and
request. -/
theorem handleCallback_eq_spec (clients : Registry) (r : CallbackRequest) :
    handleCallback clients r = handleCallbackSpec clients r := by
  unfold handleCallback handleCallbackSpec
  rw [resolveClientID_eq_spec r]
  by_cases hc : resolveClientID r = ""
  · simp [hc]
  · simp [hc]

/-- Claim C5: once `Close` has run on a session, `DirectMessage` fails with
the "session closed" error and leaves the session — including its queued
messages — unchanged. -/
theorem directMessage_after_close_fails (s : SseSession) (msg : SseMessage) :
    (s.Close).closed = true ∧
      (s.Close).DirectMessage msg = (s.Close, some "session closed") := by
  have hclosed : (s.Close).closed = true := by
    unfold SseSession.Close
    by_cases h : s.closed <;> simp [h]
  exact ⟨hclosed, by unfold SseSession.DirectMessage; simp [hclosed]⟩

/-- Claim C6: `Close` is idempotent — a second call changes nothing — and
each of the three resources (done channel, broadcast consumer, direct
queue) is released exactly once, on the unique transition of the closed
flag from false to true. -/
theorem close_idempotent_releases_once (s : SseSession) :
    SseSession.Close (SseSession.Close s) = SseSession.Close s ∧
      (SseSession.Close s).closed = true ∧
      (SseSession.Close s).doneCloseCount =
        s.doneCloseCount + (if s.closed then 0 else 1) ∧
      (SseSession.Close s).consumerCloseCount =
        s.consumerCloseCount + (if s.closed then 0 else 1) ∧
      (SseSession.Close s).directCloseCount =
        s.directCloseCount + (if s.closed then 0 else 1) := by
  unfold SseSession.Close
  by_cases h : s.closed <;> simp [h]

/-- Claim C7: the direct queue's capacity is 256, and `DirectMessage` on an
open session whose queue already holds 256 undelivered messages fails with
the "direct message buffer full" error, dropping the message and leaving
the session state unchanged. -/
theorem directMessage_queueFull (s : SseSession) (msg : SseMessage)
    (hopen : s.closed = false)
    (hfull : s.direct_messages.length = directCapacity) :
    directCapacity = 256 ∧
      s.DirectMessage msg = (s, some "direct message buffer full") := by
  refine ⟨rfl, ?_⟩
  unfold SseSession.DirectMessage
  simp [hopen, hfull]

/-- Witness for C7 at a concrete session holding 256 queued messages. -/
theorem directMessage_queueFull_witness :
    let s : SseSession :=
      ⟨"c1", none, List.replicate 256 [], false, 0, 0, 0⟩
    s.closed = false ∧ s.direct_messages.length = directCapacity ∧
      (directCapacity = 256 ∧
        s.DirectMessage [] = (s, some "direct message buffer full")) :=
  ⟨rfl, by rw [List.length_replicate]; rfl,
    directMessage_queueFull _ [] rfl (by rw [List.length_replicate]; rfl)⟩

/-- Every `wrote` action produced by the shared delivery code carries the
frame built from the delivered message's JSON encoding. -/
theorem deliver_wrote (marshal : SseMessage → Except String String)
    (flusher : Bool) (st : ConnState) (msg : SseMessage) (wOk : Bool)
    (now : Int) (f : String)
    (hf : SseAction.wrote f ∈ (deliver marshal flusher st msg wOk now).acts) :
    ∃ j, marshal msg = Except.ok j ∧ f = sseFrame j := by
  unfold deliver at hf
  rcases hu : st.session.user_handler with _ | h
  · rcases hm : marshal msg with e | j
    · simp [hu, SseMessage.Encode, hm, StepResult.acts] at hf
    · cases wOk with
      | false => simp [hu, SseMessage.Encode, hm, StepResult.acts] at hf
      | true =>
        cases flusher with
        | false =>
          simp [hu, SseMessage.Encode, hm, StepResult.acts] at hf
          exact ⟨j, rfl, hf⟩
        | true =>
          simp [hu, SseMessage.Encode, hm, StepResult.acts] at hf
          exact ⟨j, rfl, hf⟩
  · cases hb : h.onMessage msg with
    | false => simp [hu, hb, StepResult.acts] at hf
    | true =>
      rcases hm : marshal msg with e | j
      · simp [hu, hb, SseMessage.Encode, hm, StepResult.acts] at hf
      · cases wOk with
        | false => simp [hu, hb, SseMessage.Encode, hm, StepResult.acts] at hf
        | true =>
          cases flusher with
          | false =>
            simp [hu, hb, SseMessage.Encode, hm, StepResult.acts] at hf
            exact ⟨j, rfl, hf⟩
          | true =>
            simp [hu, hb, SseMessage.Encode, hm, StepResult.acts] at hf
            exact ⟨j, rfl, hf⟩

/-- Claim C9: for every message whose JSON encoding succeeds, the encoded
wire frame is exactly `data: <json>\r\n\r\n`, and every frame the multiplex
loop writes — broadcast, direct, or ping — is of that shape. -/
theorem encode_wire_format :
    (∀ (marshal : SseMessage → Except String String) (m : SseMessage)
        (j : String), marshal m = Except.ok j →
      SseMessage.Encode marshal m = Except.ok ("data: " ++ j ++ "\r\n\r\n")) ∧
    (∀ marshal flusher st e f,
      SseAction.wrote f ∈ (loopStep marshal flusher st e).acts →
      ∃ m j, marshal m = Except.ok j ∧ f = "data: " ++ j ++ "\r\n\r\n") := by
  constructor
  · intro marshal m j hm
    unfold SseMessage.Encode
    rw [hm]
    rfl
  · intro marshal flusher st e f hf
    cases e with
    | broadcastRecv got wOk now =>
      cases got with
      | none => simp [loopStep, StepResult.acts] at hf
      | some m =>
        obtain ⟨j, hm, hfr⟩ := deliver_wrote marshal flusher st m wOk now f hf
        exact ⟨m, j, hm, hfr⟩
    | directRecv wOk now =>
      unfold loopStep at hf
      rcases hq : st.session.direct_messages with _ | ⟨m, rest⟩
      · rw [hq] at hf
        cases hc : st.session.closed with
        | false => simp [hc, StepResult.acts] at hf
        | true => simp [hc, StepResult.acts] at hf
      · rw [hq] at hf
        obtain ⟨j, hm, hfr⟩ := deliver_wrote marshal flusher _ m wOk now f hf
        exact ⟨m, j, hm, hfr⟩
    | tick now wOk =>
      unfold loopStep at hf
      rcases hm : marshal (pingMessage now) with e | j
      · simp [SseMessage.Encode, hm, StepResult.acts] at hf
      · cases wOk with
        | false => simp [SseMessage.Encode, hm, StepResult.acts] at hf
        | true =>
          simp [SseMessage.Encode, hm, StepResult.acts] at hf
          exact ⟨pingMessage now, j, hm, hf⟩
    | cancel => simp [loopStep, StepResult.acts] at hf
    | enqueueDirect m =>
      unfold loopStep at hf
      rcases hr : (st.session.DirectMessage m).2 with _ | e
      · simp [hr, StepResult.acts] at hf
      · simp [hr, StepResult.acts] at hf

/-- Witness for C9 at a concrete encoder and message. -/
theorem encode_wire_format_witness :
    ((fun _ : SseMessage => Except.ok "j") ([] : SseMessage) =
        (Except.ok "j" : Except String String)) ∧
      SseMessage.Encode (fun _ => Except.ok "j") ([] : SseMessage) =
        Except.ok ("data: " ++ "j" ++ "\r\n\r\n") :=
  ⟨rfl, encode_wire_format.1 (fun _ => Except.ok "j") [] "j" rfl⟩

/-- Claim C10: `containsAcceptType` holds exactly when some comma-separated
entry of the header, with any `;`-suffixed parameters stripped and
whitespace trimmed, equals the expected type verbatim; in particular
`text/event-stream;charset=utf-8` matches while `*/*` and
`text/event-stream2` do not; and a request that does not declare the
streaming accept type but carries a non-empty `X-Client-ID` header is
routed to callback handling. -/
theorem containsAcceptType_spec :
    (∀ hdr t : String, containsAcceptType hdr t = true ↔
      ∃ p ∈ goSplit ',' hdr.data,
        goTrimSpace ((goSplit ';' p).headD []) = t.data) ∧
    containsAcceptType "text/event-stream;charset=utf-8" "text/event-stream"
        = true ∧
    containsAcceptType "*/*" "text/event-stream" = false ∧
    containsAcceptType "text/event-stream2" "text/event-stream" = false ∧
    containsAcceptType " text/html , text/event-stream " "text/event-stream"
        = true ∧
    (∀ a c : String, containsAcceptType a "text/event-stream" = false →
      c ≠ "" → sseRouteIsCallback a c = true) := by
  refine ⟨?_, by decide, by decide, by decide, by decide, ?_⟩
  · intro hdr t
    simp [containsAcceptType, List.any_eq_true]
  · intro a c hcontains hc
    simp [sseRouteIsCallback, hcontains, hc]

/-- Witness for C10: a plain-HTML request with a client id header is
diverted to callback handling. -/
theorem containsAcceptType_spec_witness :
    containsAcceptType "text/html" "text/event-stream" = false ∧
      ("abc" : String) ≠ "" ∧ sseRouteIsCallback "text/html" "abc" = true :=
  ⟨by decide, by decide,
    containsAcceptType_spec.2.2.2.2.2 "text/html" "abc" (by decide) (by decide)⟩

/-- `DirectMessage` never changes the handler or the closed flag. -/
theorem directMessage_preserves (s : SseSession) (msg : SseMessage) :
    ((s.DirectMessage msg).1).user_handler = s.user_handler ∧
      ((s.DirectMessage msg).1).closed = s.closed := by
  unfold SseSession.DirectMessage
  split_ifs <;> simp

/-- The shared delivery code never changes the handler or the closed flag
and never performs teardown actions. -/
theorem deliver_frame (marshal : SseMessage → Except String String)
    (flusher : Bool) (st : ConnState) (msg : SseMessage) (wOk : Bool)
    (now : Int) :
    (deliver marshal flusher st msg wOk now).outState.session.user_handler
        = st.session.user_handler ∧
      (deliver marshal flusher st msg wOk now).outState.session.closed
        = st.session.closed ∧
      SseAction.onDisconnect ∉ (deliver marshal flusher st msg wOk now).acts := by
  unfold deliver
  rcases hu : st.session.user_handler with _ | h
  · rcases hm : marshal msg with e | j <;> cases wOk <;> cases flusher <;>
      simp [hu, SseMessage.Encode, hm, StepResult.acts, StepResult.outState]
  · cases hb : h.onMessage msg with
    | false => simp [hu, hb, StepResult.acts, StepResult.outState]
    | true =>
      rcases hm : marshal msg with e | j <;> cases wOk <;> cases flusher <;>
        simp [hu, hb, SseMessage.Encode, hm, StepResult.acts,
          StepResult.outState]

/-- A multiplex-loop iteration never changes the handler or the closed
flag and never performs teardown actions. -/
theorem loopStep_frame (marshal : SseMessage → Except String String)
    (flusher : Bool) (st : ConnState) (e : LoopEvent) :
    (loopStep marshal flusher st e).outState.session.user_handler
        = st.session.user_handler ∧
      (loopStep marshal flusher st e).outState.session.closed
        = st.session.closed ∧
      SseAction.onDisconnect ∉ (loopStep marshal flusher st e).acts := by
  cases e with
  | broadcastRecv got wOk now =>
    cases got with
    | none => simp [loopStep, StepResult.acts, StepResult.outState]
    | some m => simpa [loopStep] using deliver_frame marshal flusher st m wOk now
  | directRecv wOk now =>
    rcases hq : st.session.direct_messages with _ | ⟨m, rest⟩
    · cases hc : st.session.closed <;>
        simp [loopStep, hq, hc, StepResult.acts, StepResult.outState]
    · simpa [loopStep, hq] using
        deliver_frame marshal flusher
          ⟨{ st.session with direct_messages := rest }, st.nextTick⟩ m wOk now
  | tick now wOk =>
    rcases hm : marshal (pingMessage now) with e | j <;> cases wOk <;>
      simp [loopStep, SseMessage.Encode, hm, StepResult.acts,
        StepResult.outState]
  | cancel => simp [loopStep, StepResult.acts, StepResult.outState]
  | enqueueDirect m =>
    have hdm := directMessage_preserves st.session m
    rcases hr : st.session.DirectMessage m with ⟨s2, res⟩
    rw [hr] at hdm
    simp only [Prod.fst] at hdm
    cases res <;>
      simp [loopStep, hr, StepResult.acts, StepResult.outState, hdm.1, hdm.2]

/-- Running the multiplex loop never changes the handler or the closed
flag and never performs teardown actions. -/
theorem runLoop_frame (marshal : SseMessage → Except String String)
    (flusher : Bool) :
    ∀ (events : List LoopEvent) (st : ConnState),
      (runLoop marshal flusher st events).state.session.user_handler
          = st.session.user_handler ∧
        (runLoop marshal flusher st events).state.session.closed
          = st.session.closed ∧
        SseAction.onDisconnect ∉ (runLoop marshal flusher st events).acts := by
  intro events
  induction events with
  | nil => intro st; simp [runLoop]
  | cons e es ih =>
    intro st
    have hstep := loopStep_frame marshal flusher st e
    unfold runLoop
    cases hs : loopStep marshal flusher st e with
    | cont st2 acts =>
      rw [hs] at hstep
      simp [StepResult.outState, StepResult.acts] at hstep
      have h2 := ih st2
      refine ⟨by simp [h2.1, hstep.1], by simp [h2.2.1, hstep.2.1], ?_⟩
      simp [List.mem_append, hstep.2.2, h2.2.2]
    | exit st2 acts =>
      rw [hs] at hstep
      simpa [StepResult.outState, StepResult.acts] using hstep

/-- Shape of the deferred teardown when the session has a handler and is
not yet closed: delete the registry entry, invoke `OnDisconnect`, then
release the session's resources. -/
theorem finishTeardown_shape (reg : Registry) (sess : SseSession)
    (cid : String) (tr : List SseAction) (uh : SseEventHandlerModel)
    (hu : sess.user_handler = some uh) (hcl : sess.closed = false) :
    (finishTeardown reg sess cid tr).trace =
        tr ++ [SseAction.registryDelete cid, SseAction.onDisconnect,
          SseAction.closeReleased] ∧
      (finishTeardown reg sess cid tr).clients = regRemove reg cid ∧
      (finishTeardown reg sess cid tr).exited = true := by
  unfold finishTeardown closeWithTrace
  simp [hu, hcl]

/-- When the multiplex phase of a handler-carrying session returns, the
teardown suffix is appended after the loop's own actions. -/
theorem runMultiplex_teardown (marshal : SseMessage → Except String String)
    (flusher : Bool) (reg : Registry) (sess : SseSession) (cid : String)
    (t0 : Int) (events : List LoopEvent) (tr : List SseAction)
    (uh : SseEventHandlerModel)
    (hu : sess.user_handler = some uh) (hcl : sess.closed = false)
    (hnd : SseAction.onDisconnect ∉ tr)
    (hex : (runMultiplex marshal flusher reg sess cid t0 events tr).exited
      = true) :
    ∃ pre,
      (runMultiplex marshal flusher reg sess cid t0 events tr).trace =
          pre ++ [SseAction.registryDelete cid, SseAction.onDisconnect,
            SseAction.closeReleased] ∧
        SseAction.onDisconnect ∉ pre ∧
        (runMultiplex marshal flusher reg sess cid t0 events tr).clients
          = regRemove reg cid := by
  have hlf := runLoop_frame marshal flusher events ⟨sess, t0 + pingInterval⟩
  unfold runMultiplex at hex ⊢
  cases hre : (runLoop marshal flusher ⟨sess, t0 + pingInterval⟩ events).exited with
  | false => simp [hre] at hex
  | true =>
    simp only [hre, if_true] at hex ⊢
    have h1 : (runLoop marshal flusher ⟨sess, t0 + pingInterval⟩
        events).state.session.user_handler = some uh := hlf.1.trans hu
    have h2 : (runLoop marshal flusher ⟨sess, t0 + pingInterval⟩
        events).state.session.closed = false := hlf.2.1.trans hcl
    obtain ⟨ht, hc2, _⟩ := finishTeardown_shape reg _ cid
      (tr ++ (runLoop marshal flusher ⟨sess, t0 + pingInterval⟩ events).acts)
      uh h1 h2
    refine ⟨tr ++ (runLoop marshal flusher ⟨sess, t0 + pingInterval⟩
      events).acts, ht, ?_, hc2⟩
    simp [hnd, hlf.2.2]

/-- When the connected phase of a handler-carrying session returns, the
teardown suffix is appended last, whatever the exit path. -/
theorem runConnected_teardown (marshal : SseMessage → Except String String)
    (flusher : Bool) (reg : Registry) (sess : SseSession) (cid : String)
    (t0 : Int) (events : List LoopEvent) (tr : List SseAction)
    (uh : SseEventHandlerModel)
    (hu : sess.user_handler = some uh) (hcl : sess.closed = false)
    (hnd : SseAction.onDisconnect ∉ tr)
    (hex : (runConnected marshal flusher reg sess cid t0 events tr).exited
      = true) :
    ∃ pre,
      (runConnected marshal flusher reg sess cid t0 events tr).trace =
          pre ++ [SseAction.registryDelete cid, SseAction.onDisconnect,
            SseAction.closeReleased] ∧
        SseAction.onDisconnect ∉ pre ∧
        (runConnected marshal flusher reg sess cid t0 events tr).clients
          = regRemove reg cid := by
  rcases hdm : sess.DirectMessage (onConnectMessage cid) with ⟨s2, dres⟩
  have hp := directMessage_preserves sess (onConnectMessage cid)
  rw [hdm] at hp
  simp only [Prod.fst] at hp
  have h1 : s2.user_handler = some uh := hp.1.trans hu
  have h2 : s2.closed = false := hp.2.trans hcl
  unfold runConnected at hex ⊢
  rw [hdm] at hex ⊢
  dsimp only at hex ⊢
  rw [h1] at hex ⊢
  dsimp only at hex ⊢
  cases dres with
  | none =>
    dsimp only at hex ⊢
    cases hce : uh.onConnectErr with
    | some err =>
      rw [hce] at hex
      dsimp only at hex ⊢
      obtain ⟨ht, hc2, _⟩ := finishTeardown_shape reg s2 cid
        (tr ++ [SseAction.directEnqueued (onConnectMessage cid)] ++
          [SseAction.onConnect (some err), SseAction.writeError err]) uh h1 h2
      refine ⟨tr ++ [SseAction.directEnqueued (onConnectMessage cid)] ++
        [SseAction.onConnect (some err), SseAction.writeError err],
        ht, ?_, hc2⟩
      simp [hnd]
    | none =>
      rw [hce] at hex
      dsimp only at hex ⊢
      exact runMultiplex_teardown marshal flusher reg s2 cid t0 events
        (tr ++ [SseAction.directEnqueued (onConnectMessage cid)] ++
          [SseAction.onConnect none]) uh h1 h2 (by simp [hnd]) hex
  | some e' =>
    dsimp only at hex ⊢
    cases hce : uh.onConnectErr with
    | some err =>
      rw [hce] at hex
      dsimp only at hex ⊢
      obtain ⟨ht, hc2, _⟩ := finishTeardown_shape reg s2 cid
        (tr ++ [SseAction.directEnqueueFailed (onConnectMessage cid) e'] ++
          [SseAction.onConnect (some err), SseAction.writeError err]) uh h1 h2
      refine ⟨tr ++ [SseAction.directEnqueueFailed (onConnectMessage cid) e'] ++
        [SseAction.onConnect (some err), SseAction.writeError err],
        ht, ?_, hc2⟩
      simp [hnd]
    | none =>
      rw [hce] at hex
      dsimp only at hex ⊢
      exact runMultiplex_teardown marshal flusher reg s2 cid t0 events
        (tr ++ [SseAction.directEnqueueFailed (onConnectMessage cid) e'] ++
          [SseAction.onConnect none]) uh h1 h2 (by simp [hnd]) hex

/-- The connected phase either leaves the registry argument untouched (the
connection is still live) or removes exactly this connection's entry. -/
theorem runConnected_clients_or (marshal : SseMessage → Except String String)
    (flusher : Bool) (reg : Registry) (sess : SseSession) (cid : String)
    (t0 : Int) (events : List LoopEvent) (tr : List SseAction) :
    (runConnected marshal flusher reg sess cid t0 events tr).clients = reg ∨
      (runConnected marshal flusher reg sess cid t0 events tr).clients
        = regRemove reg cid := by
  unfold runConnected runMultiplex finishTeardown
  dsimp only
  rcases ((sess.DirectMessage (onConnectMessage cid)).1).user_handler
    with _ | uh
  · dsimp only
    split
    · right; rfl
    · left; rfl
  · dsimp only
    rcases uh.onConnectErr with _ | err
    · dsimp only
      split
      · right; rfl
      · left; rfl
    · right; rfl

/-- A whole streaming request either leaves its own fresh entry in the
registry or removes exactly that entry again; other keys are never
touched. -/
theorem runSseConnection_clients_or
    (marshal : SseMessage → Except String String) (flusher : Bool)
    (reg0 : Registry) (factory : Option (Option SseEventHandlerModel))
    (cid : String) (t0 : Int) (events : List LoopEvent) :
    ∃ v, (runSseConnection marshal flusher reg0 factory cid t0
          events).clients = regSet reg0 cid v ∨
      (runSseConnection marshal flusher reg0 factory cid t0 events).clients
        = regRemove (regSet reg0 cid v) cid := by
  unfold runSseConnection
  rcases factory with _ | f
  · exact ⟨_, runConnected_clients_or marshal flusher _ _ cid t0 events []⟩
  · rcases f with _ | uh
    · exact ⟨_, runConnected_clients_or marshal flusher _ _ cid t0 events []⟩
    · dsimp only
      rcases uh.onInitializeErr with _ | err
      · exact ⟨_, runConnected_clients_or marshal flusher _ _ cid t0 events _⟩
      · exact ⟨_, Or.inl rfl⟩

/-- Claim C1 (divergence witness): when `OnInitialize` rejects the
connection, the handler returns before the `on_connect` handshake is
queued and without invoking `OnConnect` or `OnDisconnect`, and the session
is closed — but the registry still contains the entry for the session's
client id, because the registry-cleanup defer is installed only after the
`OnInitialize` check. -/
theorem onInitialize_failure_leaves_registry_entry :
    (runSseConnection (fun _ => Except.ok "j") true []
        (some (some ⟨some "boom", none, fun _ => true⟩)) "cid1" 0
        []).exited = true ∧
      ((runSseConnection (fun _ => Except.ok "j") true []
          (some (some ⟨some "boom", none, fun _ => true⟩)) "cid1" 0
          []).clients.lookup "cid1").isSome = true ∧
      (runSseConnection (fun _ => Except.ok "j") true []
          (some (some ⟨some "boom", none, fun _ => true⟩)) "cid1" 0
          []).trace =
        [SseAction.onInitialize (some "boom"), SseAction.writeError "boom",
          SseAction.closeReleased] ∧
      (runSseConnection (fun _ => Except.ok "j") true []
          (some (some ⟨some "boom", none, fun _ => true⟩)) "cid1" 0
          []).session.closed = true :=
  ⟨rfl, rfl, rfl, rfl⟩

/-- Claim C2 (counterexample): a handler whose `OnMessage` rejects every
message does not suppress the keepalive ping — the ping frame is written
with no `OnMessage` invocation in the trace, so `OnMessage` is not invoked
for the implicit keepalive. -/
theorem ping_bypasses_onMessage :
    (runSseConnection (fun _ => Except.ok "j") true []
        (some (some ⟨none, none, fun _ => false⟩)) "cid1" 0
        [LoopEvent.tick 60 true]).trace =
      [SseAction.onInitialize none,
        SseAction.directEnqueued (onConnectMessage "cid1"),
        SseAction.onConnect none,
        SseAction.wrote "data: j\r\n\r\n"] :=
  rfl

/-- Claim C2 as amended: `OnMessage` is invoked, before the write, for
every broadcast and direct message on a connection with a non-nil handler,
and a false result suppresses exactly that message for that connection
only; the keepalive ping, however, is written without consulting
`OnMessage`; and a connection's handler never touches other sessions'
registry entries. -/
theorem onMessage_filters_broadcast_and_direct :
    (∀ (marshal : SseMessage → Except String String) (flusher : Bool)
        (st : ConnState) (h : SseEventHandlerModel) (m : SseMessage)
        (wOk : Bool) (now : Int),
      st.session.user_handler = some h → h.onMessage m = false →
      loopStep marshal flusher st (LoopEvent.broadcastRecv (some m) wOk now)
        = StepResult.cont st [SseAction.onMessage m false]) ∧
    (∀ (marshal : SseMessage → Except String String) (flusher : Bool)
        (st : ConnState) (h : SseEventHandlerModel) (m : SseMessage)
        (rest : List SseMessage) (wOk : Bool) (now : Int),
      st.session.user_handler = some h → h.onMessage m = false →
      st.session.direct_messages = m :: rest →
      loopStep marshal flusher st (LoopEvent.directRecv wOk now)
        = StepResult.cont
            ⟨{ st.session with direct_messages := rest }, st.nextTick⟩
            [SseAction.onMessage m false]) ∧
    (∀ (marshal : SseMessage → Except String String) (st : ConnState)
        (h : SseEventHandlerModel) (m : SseMessage) (j : String) (now : Int),
      st.session.user_handler = some h → h.onMessage m = true →
      marshal m = Except.ok j →
      (loopStep marshal true st
          (LoopEvent.broadcastRecv (some m) true now)).acts =
        [SseAction.onMessage m true, SseAction.wrote (sseFrame j),
          SseAction.tickerReset (now + pingInterval)]) ∧
    (∀ (marshal : SseMessage → Except String String) (flusher : Bool)
        (st : ConnState) (now : Int) (wOk : Bool) (m : SseMessage) (b : Bool),
      SseAction.onMessage m b ∉
        (loopStep marshal flusher st (LoopEvent.tick now wOk)).acts) ∧
    (∀ (marshal : SseMessage → Except String String) (flusher : Bool)
        (reg0 : Registry) (factory : Option (Option SseEventHandlerModel))
        (cid : String) (t0 : Int) (events : List LoopEvent) (cid' : String),
      cid' ≠ cid →
      (runSseConnection marshal flusher reg0 factory cid t0
          events).clients.lookup cid' = reg0.lookup cid') := by
  refine ⟨?_, ?_, ?_, ?_, ?_⟩
  · intro marshal flusher st h m wOk now hu hb
    simp [loopStep, deliver, hu, hb]
  · intro marshal flusher st h m rest wOk now hu hb hq
    simp [loopStep, deliver, hu, hb, hq]
  · intro marshal st h m j now hu hb hm
    simp [loopStep, deliver, hu, hb, SseMessage.Encode, hm,
      StepResult.acts, sseFrame]
  · intro marshal flusher st now wOk m b
    rcases hm : marshal (pingMessage now) with e | j <;> cases wOk <;>
      simp [loopStep, SseMessage.Encode, hm, StepResult.acts]
  · intro marshal flusher reg0 factory cid t0 events cid' hne
    obtain ⟨v, hv | hv⟩ :=
      runSseConnection_clients_or marshal flusher reg0 factory cid t0 events
    · rw [hv]
      exact lookup_regSet_ne reg0 cid cid' v hne
    · rw [hv]
      exact (lookup_regRemove_ne _ cid cid' hne).trans
        (lookup_regSet_ne reg0 cid cid' v hne)

/-- Witness for the amended C2 at a concrete rejecting handler. -/
theorem onMessage_filters_witness :
    (⟨⟨"c", some ⟨none, none, fun _ => false⟩, [], false, 0, 0, 0⟩, 60⟩ :
        ConnState).session.user_handler =
          some ⟨none, none, fun _ => false⟩ ∧
      (⟨none, none, fun _ => false⟩ : SseEventHandlerModel).onMessage []
        = false ∧
      loopStep (fun _ => Except.ok "j") true
          ⟨⟨"c", some ⟨none, none, fun _ => false⟩, [], false, 0, 0, 0⟩, 60⟩
          (LoopEvent.broadcastRecv (some []) true 0) =
        StepResult.cont
          ⟨⟨"c", some ⟨none, none, fun _ => false⟩, [], false, 0, 0, 0⟩, 60⟩
          [SseAction.onMessage [] false] :=
  ⟨rfl, rfl,
    onMessage_filters_broadcast_and_direct.1 (fun _ => Except.ok "j") true
      ⟨⟨"c", some ⟨none, none, fun _ => false⟩, [], false, 0, 0, 0⟩, 60⟩
      ⟨none, none, fun _ => false⟩ [] true 0 rfl rfl⟩

/-- Claim C3 (counterexample): on a cancellation exit with a handler
attached, the trace ends with the registry removal, then `OnDisconnect`,
then the resource release performed by `Close` — so `OnDisconnect` runs
before, not after, the session's resources are released. -/
theorem onDisconnect_before_close_release :
    (runSseConnection (fun _ => Except.ok "j") true []
        (some (some ⟨none, none, fun _ => true⟩)) "cid1" 0
        [LoopEvent.cancel]).trace =
      [SseAction.onInitialize none,
        SseAction.directEnqueued (onConnectMessage "cid1"),
        SseAction.onConnect none, SseAction.registryDelete "cid1",
        SseAction.onDisconnect, SseAction.closeReleased] ∧
      (runSseConnection (fun _ => Except.ok "j") true []
          (some (some ⟨none, none, fun _ => true⟩)) "cid1" 0
          [LoopEvent.cancel]).trace[4]? = some SseAction.onDisconnect ∧
      (runSseConnection (fun _ => Except.ok "j") true []
          (some (some ⟨none, none, fun _ => true⟩)) "cid1" 0
          [LoopEvent.cancel]).trace[5]? = some SseAction.closeReleased :=
  ⟨rfl, rfl, rfl⟩

/-- Claim C3 as amended: on every exit of the connection loop of a
handler-carrying connection that survived initialization, `OnDisconnect`
runs exactly once, after the registry entry has been removed and before
`Close` releases the session's resources; afterwards the registry no
longer resolves the client id. -/
theorem onDisconnect_once_after_removal (marshal : SseMessage → Except String String)
    (flusher : Bool) (reg0 : Registry) (uh : SseEventHandlerModel)
    (cid : String) (t0 : Int) (events : List LoopEvent)
    (hinit : uh.onInitializeErr = none)
    (hex : (runSseConnection marshal flusher reg0 (some (some uh)) cid t0
      events).exited = true) :
    ∃ pre,
      (runSseConnection marshal flusher reg0 (some (some uh)) cid t0
          events).trace =
          pre ++ [SseAction.registryDelete cid, SseAction.onDisconnect,
            SseAction.closeReleased] ∧
        SseAction.onDisconnect ∉ pre ∧
        (runSseConnection marshal flusher reg0 (some (some uh)) cid t0
            events).clients.lookup cid = none := by
  unfold runSseConnection at hex ⊢
  dsimp only at hex ⊢
  rw [hinit] at hex ⊢
  dsimp only at hex ⊢
  obtain ⟨pre, htr, hnd, hcl⟩ := runConnected_teardown marshal flusher _ _
    cid t0 events _ uh rfl rfl (by simp) hex
  exact ⟨pre, htr, hnd, by rw [hcl]; exact lookup_regRemove_self _ cid⟩

/-- Witness for the amended C3 on a concrete cancellation exit. -/
theorem onDisconnect_once_after_removal_witness :
    (⟨none, none, fun _ => true⟩ : SseEventHandlerModel).onInitializeErr
        = none ∧
      (runSseConnection (fun _ => Except.ok "j") true []
          (some (some ⟨none, none, fun _ => true⟩)) "cid2" 0
          [LoopEvent.cancel]).exited = true ∧
      (∃ pre,
        (runSseConnection (fun _ => Except.ok "j") true []
            (some (some ⟨none, none, fun _ => true⟩)) "cid2" 0
            [LoopEvent.cancel]).trace =
            pre ++ [SseAction.registryDelete "cid2", SseAction.onDisconnect,
              SseAction.closeReleased] ∧
          SseAction.onDisconnect ∉ pre ∧
          (runSseConnection (fun _ => Except.ok "j") true []
              (some (some ⟨none, none, fun _ => true⟩)) "cid2" 0
              [LoopEvent.cancel]).clients.lookup "cid2" = none) :=
  ⟨rfl, rfl,
    onDisconnect_once_after_removal (fun _ => Except.ok "j") true []
      ⟨none, none, fun _ => true⟩ "cid2" 0 [LoopEvent.cancel] rfl rfl⟩

/-- Under silence, the ticker fires at `d, d + pingInterval, ...`, each
firing writes one ping frame, and the deadline advances one interval per
firing: exactly one ping per idle window. -/
theorem runLoop_silence (marshal : SseMessage → Except String String)
    (flusher : Bool) (jf : Int → String)
    (hms : ∀ t, marshal (pingMessage t) = Except.ok (jf t)) :
    ∀ (n : Nat) (sess : SseSession) (d : Int),
      runLoop marshal flusher ⟨sess, d⟩
          ((tickTimes d n).map fun t => LoopEvent.tick t true) =
        ⟨⟨sess, d + pingInterval * (n : Int)⟩,
          (tickTimes d n).map fun t => SseAction.wrote (sseFrame (jf t)),
          false⟩ := by
  intro n
  induction n with
  | zero => intro sess d; simp [tickTimes, runLoop]
  | succ n ih =>
    intro sess d
    have hstep : loopStep marshal flusher ⟨sess, d⟩ (LoopEvent.tick d true) =
        StepResult.cont ⟨sess, d + pingInterval⟩
          [SseAction.wrote (sseFrame (jf d))] := by
      simp [loopStep, SseMessage.Encode, hms d]
    simp only [tickTimes, List.map_cons]
    unfold runLoop
    rw [hstep]
    dsimp only
    rw [ih sess (d + pingInterval)]
    have harith : (d + pingInterval) + pingInterval * (n : Int)
        = d + pingInterval * (((n : Nat) + 1 : Nat) : Int) := by
      push_cast
      ring
    simp [harith]

/-- Claim C8: the keepalive interval is 60 time-units; the ticker fires a
synthetic ping (event "ping", payload the current time); every successful
flushed broadcast or direct write resets the ticker to a full interval
from the write time; the ping branch performs no `Reset` call, the ticker
merely re-arming one period later; hence under continued silence the loop
writes exactly one ping per idle window, at times one interval apart. -/
theorem keepalive_policy :
    pingInterval = 60 ∧
    (∀ now : Int, pingMessage now =
      [("event", SseVal.str "ping"), ("payload", SseVal.int now)]) ∧
    (∀ (marshal : SseMessage → Except String String) (st : ConnState)
        (m : SseMessage) (j : String) (now : Int),
      (∀ h, st.session.user_handler = some h → h.onMessage m = true) →
      marshal m = Except.ok j →
      (loopStep marshal true st
          (LoopEvent.broadcastRecv (some m) true now)).outState.nextTick
          = now + pingInterval ∧
        SseAction.tickerReset (now + pingInterval) ∈
          (loopStep marshal true st
            (LoopEvent.broadcastRecv (some m) true now)).acts) ∧
    (∀ (marshal : SseMessage → Except String String) (st : ConnState)
        (m : SseMessage) (rest : List SseMessage) (j : String) (now : Int),
      st.session.direct_messages = m :: rest →
      (∀ h, st.session.user_handler = some h → h.onMessage m = true) →
      marshal m = Except.ok j →
      (loopStep marshal true st (LoopEvent.directRecv true now)).outState.nextTick
          = now + pingInterval ∧
        SseAction.tickerReset (now + pingInterval) ∈
          (loopStep marshal true st (LoopEvent.directRecv true now)).acts) ∧
    (∀ (marshal : SseMessage → Except String String) (flusher : Bool)
        (st : ConnState) (now : Int) (wOk : Bool) (d : Int),
      SseAction.tickerReset d ∉
        (loopStep marshal flusher st (LoopEvent.tick now wOk)).acts) ∧
    (∀ (marshal : SseMessage → Except String String) (flusher : Bool)
        (st : ConnState) (now : Int) (j : String),
      marshal (pingMessage now) = Except.ok j →
      loopStep marshal flusher st (LoopEvent.tick now true) =
        StepResult.cont ⟨st.session, now + pingInterval⟩
          [SseAction.wrote (sseFrame j)]) ∧
    (∀ (marshal : SseMessage → Except String String) (flusher : Bool)
        (jf : Int → String),
      (∀ t, marshal (pingMessage t) = Except.ok (jf t)) →
      ∀ (n : Nat) (sess : SseSession) (d : Int),
        runLoop marshal flusher ⟨sess, d⟩
            ((tickTimes d n).map fun t => LoopEvent.tick t true) =
          ⟨⟨sess, d + pingInterval * (n : Int)⟩,
            (tickTimes d n).map fun t => SseAction.wrote (sseFrame (jf t)),
            false⟩) := by
  refine ⟨rfl, fun now => rfl, ?_, ?_, ?_, ?_, ?_⟩
  · intro marshal st m j now hallow hm
    rcases hu : st.session.user_handler with _ | h
    · simp [loopStep, deliver, hu, SseMessage.Encode, hm,
        StepResult.outState, StepResult.acts]
    · have hb := hallow h hu
      simp [loopStep, deliver, hu, hb, SseMessage.Encode, hm,
        StepResult.outState, StepResult.acts]
  · intro marshal st m rest j now hq hallow hm
    rcases hu : st.session.user_handler with _ | h
    · simp [loopStep, deliver, hq, hu, SseMessage.Encode, hm,
        StepResult.outState, StepResult.acts]
    · have hb := hallow h hu
      simp [loopStep, deliver, hq, hu, hb, SseMessage.Encode, hm,
        StepResult.outState, StepResult.acts]
  · intro marshal flusher st now wOk d
    rcases hm : marshal (pingMessage now) with e | j <;> cases wOk <;>
      simp [loopStep, SseMessage.Encode, hm, StepResult.acts]
  · intro marshal flusher st now j hm
    simp [loopStep, SseMessage.Encode, hm]
  · intro marshal flusher jf hms n sess d
    exact runLoop_silence marshal flusher jf hms n sess d

/-- Witness for C8: a concrete ping at time 60 writes the frame and
re-arms the ticker for time 120. -/
theorem keepalive_policy_witness :
    ((fun _ : SseMessage => Except.ok "j") (pingMessage 60) =
        (Except.ok "j" : Except String String)) ∧
      loopStep (fun _ => Except.ok "j") true
          ⟨⟨"c", none, [], false, 0, 0, 0⟩, 60⟩ (LoopEvent.tick 60 true) =
        StepResult.cont ⟨⟨"c", none, [], false, 0, 0, 0⟩, 60 + pingInterval⟩
          [SseAction.wrote (sseFrame "j")] :=
  ⟨rfl, keepalive_policy.2.2.2.2.2.1 (fun _ => Except.ok "j") true
    ⟨⟨"c", none, [], false, 0, 0, 0⟩, 60⟩ 60 "j" rfl⟩
